import Mathlib

set_option maxHeartbeats 1000000

namespace Vardbg

/-! Shallow embedding of vardbg/output/video_writer/renderer.py.

Arithmetic that Python performs on floats is modelled on exact rationals
(every constant occurring in the claims is exactly representable), the Python
built-in round with its round-half-to-even tie rule is modelled by pyRound,
and Python list slicing by pySlice.  External collaborators absent from the
source tree (PIL drawing and text measurement, the TextPainter layout
primitive, the irepr value formatter, the encoder classes) are modelled at
their interfaces as described in the specification; each such definition
carries a doc comment saying so. -/

/-- Python built-in round: round half to even, on exact rationals. -/
def pyRound (q : ℚ) : ℤ :=
  let f : ℤ := Rat.floor q
  let r : ℚ := q - f
  if r < 1/2 then f
  else if 1/2 < r then f + 1
  else if f % 2 = 0 then f else f + 1

/-- Python list slicing xs[a:b] with step 1: negative indices count from the end,
out-of-range bounds are clamped, an empty range yields the empty list. -/
def pySlice (xs : List α) (a b : ℤ) : List α :=
  let n : ℤ := xs.length
  let a2 : ℤ := if a < 0 then max (n + a) 0 else min a n
  let b2 : ℤ := if b < 0 then max (n + b) 0 else min b n
  (xs.drop a2.toNat).take (b2 - a2).toNat

/-! ## draw_code (the code viewport, renderer.py lines 217-247) -/

/-- The local variables of the windowing step in FrameRenderer.draw_code, returned
together so that each can be inspected: the naive symmetric-context bounds, the
bounds after the shift-and-clamp at the top of the file, and the sliced list of
(line, is-current-line) pairs. -/
structure CodeWindow (α : Type) where
  naive_start : ℤ
  naive_end : ℤ
  start_idx : ℤ
  end_idx : ℤ
  display : List (α × Bool)
deriving DecidableEq

/-- FrameRenderer.draw_code viewport selection: cur_line is the 1-based current
line and bodyRowsF the fractional row count self._body_rows; each line is paired
with the flag i == cur_idx; the context bounds are rounded with Python round and
the window is shifted right when the naive start is negative.  The subsequent
token-by-token rendering does not alter the selection. -/
def draw_code (lines : List α) (cur_line : ℤ) (bodyRowsF : ℚ) : CodeWindow α :=
  let cur_idx : ℤ := cur_line - 1
  let hlines := lines.enum.map fun p => (p.2, ((p.1 : ℤ) == cur_idx))
  let ctx : ℚ := (bodyRowsF - 1) / 2
  let start0 : ℤ := pyRound ((cur_idx : ℚ) - ctx)
  let end0 : ℤ := pyRound ((cur_idx : ℚ) + ctx)
  let start1 : ℤ := if start0 < 0 then 0 else start0
  let end1 : ℤ := if start0 < 0 then end0 + -start0 else end0
  { naive_start := start0, naive_end := end0, start_idx := start1, end_idx := end1,
    display := pySlice hlines start1 end1 }

/-! ## calc_sizes and draw_output (renderer.py lines 104-123, 249-252) -/

/-- FrameRenderer.calc_sizes: self.body_cols = round((cfg.var_x - cfg.sect_padding*2) / w)
where w is the measured body glyph width. -/
def body_cols (var_x sect_padding w : ℚ) : ℤ :=
  pyRound ((var_x - sect_padding * 2) / w)

/-- FrameRenderer.draw_output line selection lines[-self.out_rows:], the only part
of draw_output that decides which lines appear. -/
def draw_output (lines : List String) (out_rows : ℤ) : List String :=
  pySlice lines (-out_rows) lines.length

/-! ## The variable panels (renderer.py lines 263-325) -/

/-- One entry of VariableFrameState.other_history as draw_other_vars iterates it:
the variable name, the ignored flag of the history, and its recorded values.  The
irepr value formatter (text_format.py, not in src/) is external, so each value
is modelled by the string irepr writes for it. -/
structure HistoryEntry where
  name : String
  ignored : Bool
  values : List String
deriving DecidableEq

/-- The VariableFrameState fields used by draw_variables and its callees. -/
structure VarState where
  name : String
  action : String
  text : String
  ref : Option String
  other_history : List HistoryEntry
deriving DecidableEq

/-- One painter write performed by draw_other_vars: the blank-line separator, a
variable-name heading, or one bullet line (with its highlight flag). -/
inductive OtherEv where
  | sep
  | varname (s : String)
  | bullet (v : String) (highlighted : Bool)
deriving DecidableEq

/-- The bullet-line lead-in written before each value. -/
def bulletMark : String := "\n    " ++ String.singleton (Char.ofNat 8226) ++ " "

/-- Modelled from the spec: the bounded text-layout primitive TextPainter
(text_painter.py, not in src/) keeps a cursor and each write returns the end
cursor position; positions are modelled abstractly as the total number of
characters this painter has written so far.  bulletRun is the inner loop of
draw_other_vars over the values of one entry: hl says whether the entry name
equals the frame ref, total is len(values); it returns the bullet events, the
end cursor, and the captured destination anchor if the highlight fired. -/
def bulletRun (hl : Bool) (total : ℕ) : List String → ℕ → ℕ → List OtherEv × ℕ × Option ℕ
  | [], _, cur => ([], cur, none)
  | v :: vs, vIdx, cur =>
    let isLast : Bool := vIdx == total - 1
    let cur1 := cur + bulletMark.length + v.length
    let here : Option ℕ := if hl && isLast then some cur1 else none
    let rest := bulletRun hl total vs (vIdx + 1) cur1
    (OtherEv.bullet v (hl && isLast) :: rest.1, rest.2.1,
      match rest.2.2 with
      | some p => some p
      | none => here)

/-- FrameRenderer.draw_other_vars main loop over enumerate(state.other_history):
ignored entries are skipped entirely; the blank-line separator is written when
the enumeration index is positive; then the name heading and the value bullets.
Returns the events and the destination anchor (a later capture overwrites an
earlier one, as the code assigns instance fields). -/
def drawOtherLoop (ref : Option String) :
    List (ℕ × HistoryEntry) → ℕ → List OtherEv × Option ℕ
  | [], _ => ([], none)
  | (idx, e) :: rest, cur =>
    if e.ignored then drawOtherLoop ref rest cur
    else
      let sepEvs : List OtherEv := if 0 < idx then [OtherEv.sep] else []
      let cur1 := cur + (if 0 < idx then 2 else 0) + (e.name ++ ":").length
      let hl : Bool := ref == some e.name
      let br := bulletRun hl e.values.length e.values 0 cur1
      let restR := drawOtherLoop ref rest br.2.1
      (sepEvs ++ OtherEv.varname (e.name ++ ":") :: br.1 ++ restR.1,
        match restR.2 with
        | some p => some p
        | none => br.2.2)

/-- FrameRenderer.draw_other_vars on the variable state of a frame. -/
def draw_other_vars (st : VarState) : List OtherEv × Option ℕ :=
  drawOtherLoop st.ref st.other_history.enum 0

/-- The event stream draw_other_vars is specified to produce, written the way
the (corrected) specification describes it: per history entry, nothing when it
is ignored, otherwise a separator exactly when its enumeration index is
positive, the name heading, and one bullet per value, highlighted exactly for
the last value of the entry named by ref.  Used to compare the loop in the
source against the specified stream. -/
def entryEventsSpec (ref : Option String) (idx : ℕ) (e : HistoryEntry) : List OtherEv :=
  if e.ignored then []
  else
    (if 0 < idx then [OtherEv.sep] else []) ++
      OtherEv.varname (e.name ++ ":") ::
        (e.values.enum.map fun p =>
          OtherEv.bullet p.2 ((ref == some e.name) && (p.1 == e.values.length - 1)))

/-- FrameRenderer.draw_last_var: writes the variable name and a space, then the
action label whose end position is stored into last_var_x/y, then the value
text; returns the recorded source anchor in the cursor model. -/
def draw_last_var (st : VarState) : ℕ :=
  (st.name ++ " ").length + (st.action ++ " ").length

/-- The per-frame anchor instance fields of FrameRenderer (last_var_x/y and
ref_var_x/y, None until first assigned, never cleared afterwards). -/
structure Anchors where
  last_var : Option ℕ
  ref_var : Option ℕ
deriving DecidableEq

/-- The two anchor fields as read by FrameRenderer.draw_var_ref when it draws the
connector polyline (None means the field was never assigned since construction;
the Python code would raise there). -/
structure ConnectorDraw where
  src : Option ℕ
  dst : Option ℕ
deriving DecidableEq

/-- FrameRenderer.draw_variables: draw_other_vars (assigning ref_var only when the
ref highlight fired), then draw_last_var (always assigning last_var), then
draw_var_ref whenever state.ref is not None, reading whatever the anchor fields
hold at that point. -/
def draw_variables (a : Anchors) (st : VarState) : Anchors × Option ConnectorDraw :=
  let ov := draw_other_vars st
  let a1 : Anchors :=
    { a with ref_var := match ov.2 with | some p => some p | none => a.ref_var }
  let a2 : Anchors := { a1 with last_var := some (draw_last_var st) }
  (a2, if st.ref.isSome then some ⟨a2.last_var, a2.ref_var⟩ else none)

/-! ## The frame lifecycle and construction (renderer.py lines 45-102, 155-215, 340-344) -/

/-- The Config fields consumed by the parts of FrameRenderer under verification. -/
structure Config where
  w : ℚ
  h : ℚ
  fps : ℚ
  intro_text : String
  intro_time : ℚ
  watermark : Bool

/-- One drawing action recorded on the current canvas: the static chrome of
start_frame, a centred text, the variable panels, the connector polyline, or the
watermark overlay.  PIL rasterisation is external; the event records what was
drawn. -/
inductive DrawEvent where
  | chrome
  | textCenter (x y : ℚ) (text : String)
  | variables (name : String)
  | connector (src dst : Option ℕ)
  | watermark
deriving DecidableEq

/-- The encoder selected in FrameRenderer.__init__ with the constructor arguments
it receives; the encoder classes themselves are external collaborators. -/
inductive Encoder where
  | opencv (path codec : String) (fps w h : ℚ)
  | gif (path : String) (fps : ℚ)
  | webp (path : String) (fps : ℚ)
deriving DecidableEq

/-- The mutable FrameRenderer state threaded through the frame lifecycle: the
config, the chosen encoder, the current frame (None while no canvas is open),
the frames handed to the encoder so far, the anchor fields, and whether
encoder.stop has run. -/
structure Renderer where
  cfg : Config
  encoder : Encoder
  frame : Option (List DrawEvent)
  written : List (List DrawEvent)
  anchors : Anchors
  stopped : Bool

/-- FrameRenderer.new_frame: a fresh blank canvas replaces the current frame. -/
def new_frame (r : Renderer) : Renderer := { r with frame := some [] }

/-- FrameRenderer.draw_text_center: PIL text measurement is external; modelled as
one event recording the centre point and the text. -/
def draw_text_center (x y : ℚ) (text : String) (r : Renderer) : Renderer :=
  match r.frame with
  | none => r
  | some evs => { r with frame := some (evs ++ [DrawEvent.textCenter x y text]) }

/-- FrameRenderer.start_frame: a new frame plus the static chrome (panel dividers
and heading labels); the lazy calc_sizes population is modelled by the
standalone geometry functions. -/
def start_frame (r : Renderer) : Renderer :=
  { new_frame r with frame := some [DrawEvent.chrome] }

/-- FrameRenderer.finish_frame: bail out when no frame exists; otherwise draw the
variable state when given, overlay the watermark when configured, and hand the
canvas to the encoder.  The frame field is not cleared. -/
def finish_frame (r : Renderer) (var_state : Option VarState) : Renderer :=
  match r.frame with
  | none => r
  | some evs =>
    let av : Anchors × List DrawEvent :=
      match var_state with
      | none => (r.anchors, evs)
      | some st =>
        let dv := draw_variables r.anchors st
        (dv.1, evs ++ DrawEvent.variables st.name ::
          (match dv.2 with
           | some c => [DrawEvent.connector c.src c.dst]
           | none => []))
    let evs2 := if r.cfg.watermark then av.2 ++ [DrawEvent.watermark] else av.2
    { r with anchors := av.1, frame := some evs2, written := r.written ++ [evs2] }

/-- One iteration of the write_intro loop body. -/
def introFrame (r : Renderer) : Renderer :=
  finish_frame (draw_text_center (r.cfg.w / 2) (r.cfg.h / 2) r.cfg.intro_text (new_frame r)) none

/-- The for-loop of write_intro. -/
def introLoop : ℕ → Renderer → Renderer
  | 0, r => r
  | n + 1, r => introLoop n (introFrame r)

/-- FrameRenderer.write_intro: emits round(intro_time * fps) frames, each a fresh
blank canvas holding only the centred intro text, finished with no variable
state. -/
def write_intro (r : Renderer) : Renderer :=
  introLoop (pyRound (r.cfg.intro_time * r.cfg.fps)).toNat r

/-- The canvas every intro frame ends up holding: the centred intro text, plus
the watermark overlay when it is enabled. -/
def introCanvas (cfg : Config) : List DrawEvent :=
  if cfg.watermark
  then [DrawEvent.textCenter (cfg.w / 2) (cfg.h / 2) cfg.intro_text, DrawEvent.watermark]
  else [DrawEvent.textCenter (cfg.w / 2) (cfg.h / 2) cfg.intro_text]

/-- Final component of a POSIX path (everything after the last slash). -/
def lastComponent : List Char → List Char → List Char
  | [], acc => acc.reverse
  | c :: rest, acc =>
    if c = Char.ofNat 47 then lastComponent rest [] else lastComponent rest (c :: acc)

/-- Position of the last dot, pathlib-style rfind. -/
def lastDotIdx : List Char → ℕ → Option ℕ → Option ℕ
  | [], _, best => best
  | c :: rest, i, best =>
    lastDotIdx rest (i + 1) (if c = Char.ofNat 46 then some i else best)

/-- pathlib Path.suffix: the dot-extension of the final component, empty when the
only dot is leading or trailing. -/
def pathSuffix (p : String) : List Char :=
  let nm := lastComponent p.toList []
  match lastDotIdx nm 0 none with
  | some i => if 0 < i ∧ i + 1 < nm.length then nm.drop i else []
  | none => []

/-- Path(path).suffix.lower()[1:] from FrameRenderer.__init__. -/
def pathExt (p : String) : String :=
  String.mk (((pathSuffix p).map Char.toLower).drop 1)

/-- An ASCII single quote, kept out of string literals. -/
def quoteMark : String := String.singleton (Char.ofNat 39)

/-- The encoder dispatch of FrameRenderer.__init__ on the output extension,
with the ValueError message raised for an unrecognized extension. -/
def selectEncoder (path : String) (ext : String) (cfg : Config) : Except String Encoder :=
  if ext = "mp4" then Except.ok (Encoder.opencv path "mp4v" cfg.fps cfg.w cfg.h)
  else if ext = "gif" then Except.ok (Encoder.gif path cfg.fps)
  else if ext = "webp" then Except.ok (Encoder.webp path cfg.fps)
  else Except.error ("Unrecognized file extension " ++ quoteMark ++ ext ++ quoteMark)

/-- The freshly constructed FrameRenderer state before the optional intro. -/
def initState (cfg : Config) (enc : Encoder) : Renderer :=
  { cfg := cfg, encoder := enc, frame := none, written := [],
    anchors := ⟨none, none⟩, stopped := false }

/-- FrameRenderer.__init__: encoder dispatch on the lower-cased extension (fatal
ValueError on an unknown one, so no renderer value is produced), then
write_intro when intro_text and intro_time are both truthy. -/
def mkFrameRenderer (path : String) (cfg : Config) : Except String Renderer :=
  match selectEncoder path (pathExt path) cfg with
  | Except.error e => Except.error e
  | Except.ok enc =>
    let r := initState cfg enc
    Except.ok (if cfg.intro_text ≠ "" ∧ cfg.intro_time ≠ 0 then write_intro r else r)

/-- FrameRenderer.close: finish the final frame, then stop the encoder. -/
def close (r : Renderer) (var_state : Option VarState) : Renderer :=
  { finish_frame r var_state with stopped := true }

/-! ## Concrete configurations used by witnesses and counterexamples -/

/-- A config with intro and watermark disabled. -/
def cfgPlain : Config := ⟨640, 480, 30, "", 0, false⟩

/-- A config with empty intro text but nonzero intro duration and frame rate. -/
def cfgIntroEmptyText : Config := ⟨640, 480, 30, "", 1, false⟩

/-- A config with a one-second intro at 2 fps. -/
def cfgIntro : Config := ⟨640, 480, 2, "T", 1, false⟩

/-- The intro config with the watermark enabled. -/
def cfgIntroWm : Config := ⟨640, 480, 2, "T", 1, true⟩

/-! ## Helper lemmas -/

/-- The executable Batteries floor on rationals agrees with the mathematical floor. -/
lemma ratFloor_eq_floor (q : ℚ) : Rat.floor q = ⌊q⌋ := by
  rw [Rat.floor_def', Rat.floor_def]

/-- Evaluation rule for pyRound below the tie point. -/
lemma pyRound_eq_of (q : ℚ) (f : ℤ) (h1 : (f : ℚ) ≤ q) (h2 : q < f + 1)
    (h3 : q - f < 1/2) : pyRound q = f := by
  have hf : Rat.floor q = f := by
    rw [ratFloor_eq_floor]
    exact Int.floor_eq_iff.mpr ⟨h1, by linarith⟩
  simp only [pyRound, hf]
  rw [if_pos h3]

/-- Evaluation rule for pyRound above the tie point. -/
lemma pyRound_eq_succ_of (q : ℚ) (f : ℤ) (h1 : (f : ℚ) ≤ q) (h2 : q < f + 1)
    (h3 : 1/2 < q - f) : pyRound q = f + 1 := by
  have hf : Rat.floor q = f := by
    rw [ratFloor_eq_floor]
    exact Int.floor_eq_iff.mpr ⟨h1, by linarith⟩
  simp only [pyRound, hf]
  rw [if_neg (by linarith), if_pos h3]

/-- Evaluation rule for pyRound at a tie with even floor. -/
lemma pyRound_eq_half_even (q : ℚ) (f : ℤ) (h1 : (f : ℚ) ≤ q)
    (h3 : q - f = 1/2) (he : f % 2 = 0) : pyRound q = f := by
  have hf : Rat.floor q = f := by
    rw [ratFloor_eq_floor]
    exact Int.floor_eq_iff.mpr ⟨h1, by linarith⟩
  simp only [pyRound, hf]
  rw [if_neg (by rw [h3]; exact lt_irrefl _), if_neg (by rw [h3]; exact lt_irrefl _), if_pos he]

/-- Evaluation rule for pyRound at a tie with odd floor. -/
lemma pyRound_eq_half_odd (q : ℚ) (f : ℤ) (h1 : (f : ℚ) ≤ q)
    (h3 : q - f = 1/2) (ho : ¬ f % 2 = 0) : pyRound q = f + 1 := by
  have hf : Rat.floor q = f := by
    rw [ratFloor_eq_floor]
    exact Int.floor_eq_iff.mpr ⟨h1, by linarith⟩
  simp only [pyRound, hf]
  rw [if_neg (by rw [h3]; exact lt_irrefl _), if_neg (by rw [h3]; exact lt_irrefl _), if_neg ho]

/-- pyRound is the identity on integers. -/
lemma pyRound_intCast (n : ℤ) : pyRound (n : ℚ) = n :=
  pyRound_eq_of _ n (le_refl _) (by linarith) (by norm_num)

/-- pyRound stays within a half of its argument. -/
lemma pyRound_bracket (q : ℚ) : (pyRound q : ℚ) - 1/2 ≤ q ∧ q ≤ (pyRound q : ℚ) + 1/2 := by
  have hle : (⌊q⌋ : ℚ) ≤ q := Int.floor_le q
  have hlt : q < ⌊q⌋ + 1 := Int.lt_floor_add_one q
  simp only [pyRound, ratFloor_eq_floor]
  split_ifs with c1 c2 c3 <;> constructor <;> push_cast <;> linarith

/-- Unfolding rule for draw_code once the two rounded bounds are known. -/
lemma draw_code_eval (lines : List α) (cur_line : ℤ) (bodyRowsF : ℚ) (s0 e0 : ℤ)
    (hs : pyRound (((cur_line - 1 : ℤ) : ℚ) - (bodyRowsF - 1) / 2) = s0)
    (he : pyRound (((cur_line - 1 : ℤ) : ℚ) + (bodyRowsF - 1) / 2) = e0) :
    draw_code lines cur_line bodyRowsF =
      { naive_start := s0, naive_end := e0,
        start_idx := if s0 < 0 then 0 else s0,
        end_idx := if s0 < 0 then e0 + -s0 else e0,
        display := pySlice (lines.enum.map fun p => (p.2, ((p.1 : ℤ) == cur_line - 1)))
          (if s0 < 0 then 0 else s0) (if s0 < 0 then e0 + -s0 else e0) } := by
  simp only [draw_code, hs, he]

/-- Length of a Python slice with nonnegative bounds. -/
lemma pySlice_length_of_nonneg (xs : List α) (a b : ℤ) (ha : 0 ≤ a) (hb : 0 ≤ b) :
    (pySlice xs a b).length = (min b (xs.length : ℤ) - min a (xs.length : ℤ)).toNat := by
  simp only [pySlice, List.length_take, List.length_drop]
  rw [if_neg (by omega), if_neg (by omega)]
  omega

/-- The bullet events of one entry, closed form over the enumerated values. -/
lemma bulletRun_events (hl : Bool) (total : ℕ) (vs : List String) (vIdx cur : ℕ) :
    (bulletRun hl total vs vIdx cur).1 =
      (vs.enumFrom vIdx).map fun p => OtherEv.bullet p.2 (hl && (p.1 == total - 1)) := by
  induction vs generalizing vIdx cur with
  | nil => simp [bulletRun, List.enumFrom]
  | cons v vs ih => simp [bulletRun, List.enumFrom, ih]

/-- The draw_other_vars loop produces exactly the specified per-entry streams. -/
lemma drawOtherLoop_events (ref : Option String) (l : List (ℕ × HistoryEntry)) (cur : ℕ) :
    (drawOtherLoop ref l cur).1 = l.flatMap fun p => entryEventsSpec ref p.1 p.2 := by
  induction l generalizing cur with
  | nil => simp [drawOtherLoop]
  | cons pe rest ih =>
    obtain ⟨idx, e⟩ := pe
    by_cases hig : e.ignored
    · simp [drawOtherLoop, hig, entryEventsSpec, ih]
    · simp [drawOtherLoop, hig, entryEventsSpec, ih, bulletRun_events, List.enum]

/-- introFrame leaves the config untouched. -/
lemma introFrame_cfg (r : Renderer) : (introFrame r).cfg = r.cfg := rfl

/-- introFrame leaves the encoder untouched. -/
lemma introFrame_encoder (r : Renderer) : (introFrame r).encoder = r.encoder := rfl

/-- Each intro iteration hands exactly one intro canvas to the encoder. -/
lemma introFrame_written (r : Renderer) :
    (introFrame r).written = r.written ++ [introCanvas r.cfg] := by
  cases hw : r.cfg.watermark <;>
    simp [introFrame, finish_frame, draw_text_center, new_frame, introCanvas, hw]

/-- The intro loop leaves the config untouched. -/
lemma introLoop_cfg (n : ℕ) (r : Renderer) : (introLoop n r).cfg = r.cfg := by
  induction n generalizing r with
  | zero => rfl
  | succ n ih => rw [introLoop, ih, introFrame_cfg]

/-- The intro loop leaves the encoder untouched. -/
lemma introLoop_encoder (n : ℕ) (r : Renderer) : (introLoop n r).encoder = r.encoder := by
  induction n generalizing r with
  | zero => rfl
  | succ n ih => rw [introLoop, ih, introFrame_encoder]

/-- The intro loop appends one intro canvas per iteration. -/
lemma introLoop_written (n : ℕ) (r : Renderer) :
    (introLoop n r).written = r.written ++ List.replicate n (introCanvas r.cfg) := by
  induction n generalizing r with
  | zero => simp [introLoop]
  | succ n ih =>
    rw [introLoop, ih, introFrame_written, introFrame_cfg]
    simp [List.replicate_succ]

/-- write_intro hands round(intro_time * fps) intro canvases to the encoder. -/
lemma write_intro_written (r : Renderer) :
    (write_intro r).written =
      r.written ++
        List.replicate (pyRound (r.cfg.intro_time * r.cfg.fps)).toNat (introCanvas r.cfg) :=
  introLoop_written _ r

/-- write_intro leaves the encoder untouched. -/
lemma write_intro_encoder (r : Renderer) : (write_intro r).encoder = r.encoder :=
  introLoop_encoder _ r

/-! ## Claim theorems -/

/-- C9: draw_output renders exactly the last min(out_rows, n) output lines when
out_rows is at least 1, and renders the whole list when out_rows equals 0,
because the slice lines[-0:] is the whole list. -/
theorem C9_output_tail (lines : List String) (out_rows : ℤ) :
    (1 ≤ out_rows →
      draw_output lines out_rows = lines.drop (lines.length - out_rows.toNat) ∧
      (draw_output lines out_rows).length = min out_rows.toNat lines.length) ∧
    (out_rows = 0 → draw_output lines out_rows = lines) := by
  constructor
  · intro h
    have hdef : draw_output lines out_rows = lines.drop (lines.length - out_rows.toNat) := by
      simp only [draw_output, pySlice]
      have hA : (max ((lines.length : ℤ) + -out_rows) 0).toNat =
          lines.length - out_rows.toNat := by omega
      rw [if_pos (show -out_rows < 0 by omega),
        if_neg (show ¬((lines.length : ℤ) < 0) by omega), hA]
      apply List.take_of_length_le
      rw [List.length_drop]
      omega
    refine ⟨hdef, ?_⟩
    rw [hdef, List.length_drop]
    omega
  · intro h
    subst h
    simp only [draw_output, pySlice]
    rw [if_neg (show ¬(-(0:ℤ) < 0) by omega),
      if_neg (show ¬((lines.length : ℤ) < 0) by omega)]
    have hA : (min (-(0:ℤ)) (lines.length : ℤ)).toNat = 0 := by omega
    rw [hA, List.drop_zero]
    apply List.take_of_length_le
    omega

/-- C9 witness: with three output lines and two rows, the last two lines. -/
theorem C9_output_tail_witness :
    (1:ℤ) ≤ 2 ∧
    draw_output ["a", "b", "c"] 2 =
      (["a", "b", "c"].drop (["a", "b", "c"].length - (2:ℤ).toNat)) ∧
    (draw_output ["a", "b", "c"] 2).length = min (2:ℤ).toNat ["a", "b", "c"].length :=
  ⟨by norm_num, ((C9_output_tail ["a", "b", "c"] 2).1 (by norm_num)).1,
    ((C9_output_tail ["a", "b", "c"] 2).1 (by norm_num)).2⟩

/-- C6 counterexample: with a first history entry flagged ignored and a second
active one, the blank-line separator is written before the first variable that
is actually rendered, because the separator test uses the enumeration index
(which counts skipped entries), contradicting the claim that no separator
precedes the first rendered variable. -/
theorem C6_counterexample :
    (draw_other_vars ⟨"n", "a", "t", none,
        [⟨"a", true, ["v"]⟩, ⟨"b", false, ["w"]⟩]⟩).1 =
      [OtherEv.sep, OtherEv.varname "b:", OtherEv.bullet "w" false] ∧
    (draw_other_vars ⟨"n", "a", "t", none,
        [⟨"a", true, ["v"]⟩, ⟨"b", false, ["w"]⟩]⟩).1.head? = some OtherEv.sep := by
  constructor <;> decide

/-- C6 (amended): the other-variables render stream equals, entry by entry, the
corrected specification stream: an ignored variable contributes nothing (in
particular zero bullets), a non-skipped variable is preceded by a separator
exactly when its enumeration index in other_history is positive (so a skipped
first entry still leaves a separator before the first rendered variable), then
its name heading and one bullet per recorded value, highlighted only for the
last value of the variable named by ref. -/
theorem C6_other_vars (st : VarState) :
    (draw_other_vars st).1 =
      st.other_history.enum.flatMap fun p => entryEventsSpec st.ref p.1 p.2 :=
  drawOtherLoop_events st.ref st.other_history.enum 0

/-- C4 counterexample: frame one captures a destination anchor (ref = "x" with a
matching history entry); frame two has ref = "y" with no matching entry, so no
destination anchor is captured during frame two, yet the connector is still
drawn, reusing the anchor position 11 captured during frame one. -/
theorem C4_counterexample :
    (draw_other_vars ⟨"n", "set", "t", some "y", [⟨"x", false, ["v1"]⟩]⟩).2 = none ∧
    (draw_variables
        (draw_variables ⟨none, none⟩ ⟨"n", "set", "t", some "x", [⟨"x", false, ["v1"]⟩]⟩).1
        ⟨"n", "set", "t", some "y", [⟨"x", false, ["v1"]⟩]⟩).2 =
      some ⟨some 6, some 11⟩ ∧
    (draw_variables ⟨none, none⟩
        ⟨"n", "set", "t", some "x", [⟨"x", false, ["v1"]⟩]⟩).1.ref_var = some 11 := by
  refine ⟨?_, ?_, ?_⟩ <;> decide

/-- C4 (amended): the connector is skipped when ref is null, but it is attempted
whenever ref is non-null, whether or not a destination anchor was captured
during the current frame: the anchor fields persist, so when the current frame
captures nothing the connector reuses whatever the ref anchor field held before
the frame (a stale position from an earlier frame, or None). -/
theorem C4_connector (a : Anchors) (st : VarState) :
    (st.ref = none → (draw_variables a st).2 = none) ∧
    (st.ref.isSome → (draw_other_vars st).2 = none →
      (draw_variables a st).2 = some ⟨some (draw_last_var st), a.ref_var⟩ ∧
      (draw_variables a st).1.ref_var = a.ref_var) := by
  constructor
  · intro h
    simp [draw_variables, h]
  · intro h hc
    constructor <;> simp [draw_variables, hc, h]

/-- C4 witness: with a stale ref anchor 11 on the books and a frame whose ref
names a variable absent from the history, the connector reuses anchor 11. -/
theorem C4_connector_witness :
    (draw_variables ⟨some 6, some 11⟩
        ⟨"n", "set", "t", some "y", [⟨"x", false, ["v1"]⟩]⟩).2 =
      some ⟨some (draw_last_var ⟨"n", "set", "t", some "y", [⟨"x", false, ["v1"]⟩]⟩),
        some 11⟩ ∧
    (draw_variables ⟨some 6, some 11⟩
        ⟨"n", "set", "t", some "y", [⟨"x", false, ["v1"]⟩]⟩).1.ref_var = some 11 :=
  (C4_connector ⟨some 6, some 11⟩
    ⟨"n", "set", "t", some "y", [⟨"x", false, ["v1"]⟩]⟩).2 (by decide) (by decide)

/-- C2 counterexample: after a frame is finished the frame field still holds the
canvas (the compositor does not return to Idle), so a defensive final finish
call hands the encoder the same canvas a second time: two writes result from
one composed frame. -/
theorem C2_counterexample :
    (finish_frame (new_frame (initState cfgPlain (Encoder.gif "a.gif" cfgPlain.fps)))
        none).frame ≠ none ∧
    (finish_frame
        (finish_frame (new_frame (initState cfgPlain (Encoder.gif "a.gif" cfgPlain.fps)))
          none) none).written.length = 2 := by
  constructor <;> simp [finish_frame, new_frame, initState, cfgPlain]

/-- C2 (amended): calling finish_frame while no canvas was ever opened is a
no-op, but finishing does not return the compositor to Idle: the frame field
keeps the canvas, and every finish call made while a canvas exists hands one
more frame to the encoder — so a defensive final finish after a frame was
already finished writes an additional copy rather than nothing. -/
theorem C2_finish_frame (r : Renderer) (vs : Option VarState) :
    (r.frame = none → finish_frame r vs = r) ∧
    (r.frame ≠ none →
      (finish_frame r vs).written.length = r.written.length + 1 ∧
      (finish_frame r vs).frame ≠ none) := by
  constructor
  · intro h
    simp [finish_frame, h]
  · intro h
    cases hf : r.frame with
    | none => exact absurd hf h
    | some evs =>
      cases vs with
      | none =>
        constructor <;> simp [finish_frame, hf]
      | some st =>
        constructor <;> simp [finish_frame, hf]

/-- C2 witness: an idle renderer is unchanged by finish_frame, and finishing an
open canvas adds exactly one written frame. -/
theorem C2_finish_frame_witness :
    finish_frame (initState cfgPlain (Encoder.gif "a.gif" cfgPlain.fps)) none =
      initState cfgPlain (Encoder.gif "a.gif" cfgPlain.fps) ∧
    (finish_frame (new_frame (initState cfgPlain (Encoder.gif "a.gif" cfgPlain.fps)))
        none).written.length =
      (new_frame (initState cfgPlain (Encoder.gif "a.gif" cfgPlain.fps))).written.length + 1 :=
  ⟨(C2_finish_frame (initState cfgPlain (Encoder.gif "a.gif" cfgPlain.fps)) none).1 rfl,
    ((C2_finish_frame (new_frame (initState cfgPlain (Encoder.gif "a.gif" cfgPlain.fps)))
      none).2 (by simp [new_frame])).1⟩

/-- C1 counterexample: a 50-line file, current line 25, with self._body_rows
exactly 11 (body-row capacity 11): the slice [19:29] holds 10 lines, not
min(bodyRows, L) = min 11 50 = 11 as the claim states. -/
theorem C1_counterexample :
    (draw_code (List.range 50) 25 11).display.length = 10 ∧
    ¬((draw_code (List.range 50) 25 11).display.length = min 11 50) := by
  have hs : pyRound ((((25:ℤ) - 1 : ℤ) : ℚ) - ((11:ℚ) - 1) / 2) = 19 :=
    pyRound_eq_of _ 19 (by norm_num) (by norm_num) (by norm_num)
  have he : pyRound ((((25:ℤ) - 1 : ℤ) : ℚ) + ((11:ℚ) - 1) / 2) = 29 :=
    pyRound_eq_of _ 29 (by norm_num) (by norm_num) (by norm_num)
  rw [draw_code_eval (List.range 50) 25 11 19 29 hs he]
  constructor <;> decide

/-- C1 (amended): when self._body_rows is an odd integer 2k+1 with k at least 1
and the 1-based current line lies within the file, the window start is
clamped nonnegative and at most the current index, the current line always
falls inside the displayed window, and the displayed window holds
min(bodyRows - 1, L - start) lines, i.e. one less than the body-row capacity
(rather than min(bodyRows, L)) when enough lines remain. -/
theorem C1_code_window (lines : List α) (cur_line : ℤ) (k : ℕ)
    (hk : 1 ≤ k) (h1 : 1 ≤ cur_line) (h2 : cur_line ≤ (lines.length : ℤ)) :
    0 ≤ (draw_code lines cur_line ((2 * k + 1 : ℕ) : ℚ)).start_idx ∧
    (draw_code lines cur_line ((2 * k + 1 : ℕ) : ℚ)).start_idx ≤ cur_line - 1 ∧
    (cur_line - 1 : ℤ) <
      (draw_code lines cur_line ((2 * k + 1 : ℕ) : ℚ)).start_idx +
        (draw_code lines cur_line ((2 * k + 1 : ℕ) : ℚ)).display.length ∧
    (draw_code lines cur_line ((2 * k + 1 : ℕ) : ℚ)).display.length =
      min (2 * k)
        (lines.length - (draw_code lines cur_line ((2 * k + 1 : ℕ) : ℚ)).start_idx.toNat) := by
  have hs0 : pyRound (((cur_line - 1 : ℤ) : ℚ) - (((2 * k + 1 : ℕ) : ℚ) - 1) / 2) =
      cur_line - 1 - k := by
    have hx : (((cur_line - 1 : ℤ) : ℚ) - (((2 * k + 1 : ℕ) : ℚ) - 1) / 2) =
        ((cur_line - 1 - k : ℤ) : ℚ) := by push_cast; ring
    rw [hx, pyRound_intCast]
  have he0 : pyRound (((cur_line - 1 : ℤ) : ℚ) + (((2 * k + 1 : ℕ) : ℚ) - 1) / 2) =
      cur_line - 1 + k := by
    have hx : (((cur_line - 1 : ℤ) : ℚ) + (((2 * k + 1 : ℕ) : ℚ) - 1) / 2) =
        ((cur_line - 1 + k : ℤ) : ℚ) := by push_cast; ring
    rw [hx, pyRound_intCast]
  rw [draw_code_eval lines cur_line _ _ _ hs0 he0]
  dsimp only
  have hlen : ∀ s e : ℤ, 0 ≤ s → 0 ≤ e →
      (pySlice (lines.enum.map fun p => (p.2, ((p.1 : ℤ) == cur_line - 1))) s e).length =
        (min e (lines.length : ℤ) - min s (lines.length : ℤ)).toNat := by
    intro s e hs he
    rw [pySlice_length_of_nonneg _ _ _ hs he, List.length_map, List.enum_length]
  by_cases hneg : cur_line - 1 - k < 0
  · simp only [if_pos hneg]
    rw [hlen 0 (cur_line - 1 + k + -(cur_line - 1 - k)) le_rfl (by omega)]
    omega
  · simp only [if_neg hneg]
    rw [hlen (cur_line - 1 - k) (cur_line - 1 + k) (by omega) (by omega)]
    omega

/-- C1 witness: the 50-line, current-line-25, bodyRows-11 scenario instantiates
the amended window bounds. -/
theorem C1_code_window_witness :
    (1 ≤ 5 ∧ (1:ℤ) ≤ 25 ∧ (25:ℤ) ≤ ((List.range 50).length : ℤ)) ∧
    (0 ≤ (draw_code (List.range 50) 25 ((2 * 5 + 1 : ℕ) : ℚ)).start_idx ∧
      (draw_code (List.range 50) 25 ((2 * 5 + 1 : ℕ) : ℚ)).start_idx ≤ 25 - 1 ∧
      (25 - 1 : ℤ) <
        (draw_code (List.range 50) 25 ((2 * 5 + 1 : ℕ) : ℚ)).start_idx +
          (draw_code (List.range 50) 25 ((2 * 5 + 1 : ℕ) : ℚ)).display.length ∧
      (draw_code (List.range 50) 25 ((2 * 5 + 1 : ℕ) : ℚ)).display.length =
        min (2 * 5)
          ((List.range 50).length -
            (draw_code (List.range 50) 25 ((2 * 5 + 1 : ℕ) : ℚ)).start_idx.toNat)) :=
  ⟨⟨by norm_num, by norm_num, by simp⟩,
    C1_code_window (List.range 50) 25 5 (by norm_num) (by norm_num) (by simp)⟩

/-- C5 counterexample: with bodyRows 11 and current line 2 in a 50-line file, the
shifted window ends at index 10 and holds 10 lines, not end 8 with a 9-line
window as the claim states. -/
theorem C5_counterexample :
    (draw_code (List.range 50) 2 11).end_idx = 10 ∧
    ¬((draw_code (List.range 50) 2 11).end_idx = 8) ∧
    (draw_code (List.range 50) 2 11).display.length = 10 ∧
    ¬((draw_code (List.range 50) 2 11).display.length = 9) := by
  have hs : pyRound ((((2:ℤ) - 1 : ℤ) : ℚ) - ((11:ℚ) - 1) / 2) = -4 :=
    pyRound_eq_of _ (-4) (by norm_num) (by norm_num) (by norm_num)
  have he : pyRound ((((2:ℤ) - 1 : ℤ) : ℚ) + ((11:ℚ) - 1) / 2) = 6 :=
    pyRound_eq_of _ 6 (by norm_num) (by norm_num) (by norm_num)
  rw [draw_code_eval (List.range 50) 2 11 (-4) 6 hs he]
  refine ⟨?_, ?_, ?_, ?_⟩ <;> decide

/-- C5 (amended): with bodyRows 11 and current line 2 in a 50-line file, the
naive start is -4 (negative as claimed), and the shift-and-clamp produces
start 0 and end 10, a 10-line window that includes 0-based line index 1. -/
theorem C5_code_window_top :
    (draw_code (List.range 50) 2 11).naive_start = -4 ∧
    (draw_code (List.range 50) 2 11).naive_start < 0 ∧
    (draw_code (List.range 50) 2 11).start_idx = 0 ∧
    (draw_code (List.range 50) 2 11).end_idx = 10 ∧
    (draw_code (List.range 50) 2 11).display.length = 10 ∧
    ((1 : ℕ), true) ∈ (draw_code (List.range 50) 2 11).display := by
  have hs : pyRound ((((2:ℤ) - 1 : ℤ) : ℚ) - ((11:ℚ) - 1) / 2) = -4 :=
    pyRound_eq_of _ (-4) (by norm_num) (by norm_num) (by norm_num)
  have he : pyRound ((((2:ℤ) - 1 : ℤ) : ℚ) + ((11:ℚ) - 1) / 2) = 6 :=
    pyRound_eq_of _ 6 (by norm_num) (by norm_num) (by norm_num)
  rw [draw_code_eval (List.range 50) 2 11 (-4) 6 hs he]
  refine ⟨rfl, ?_, ?_, ?_, ?_, ?_⟩ <;> decide

/-- C3 counterexample: with verticalSplitX 19, padding 2 and glyph width 10 the
available width is 15 and the code computes round(1.5) = 2 columns (round half
to even), while floor gives 1; the claimed bound codeCols * glyphWidth <=
availableWidth fails, since 2 * 10 > 15. -/
theorem C3_counterexample :
    body_cols 19 2 10 = 2 ∧
    ⌊((19:ℚ) - 2 * 2) / 10⌋ = 1 ∧
    ¬(body_cols 19 2 10 = ⌊((19:ℚ) - 2 * 2) / 10⌋) ∧
    ¬((body_cols 19 2 10 : ℚ) * 10 ≤ (19:ℚ) - 2 * 2) := by
  have hb : body_cols 19 2 10 = 2 := by
    rw [body_cols, show ((19:ℚ) - 2 * 2) / 10 = 3/2 by norm_num]
    have h := pyRound_eq_half_odd (3/2 : ℚ) 1 (by norm_num) (by norm_num) (by decide)
    rw [h]
    decide
  have hfl : ⌊((19:ℚ) - 2 * 2) / 10⌋ = 1 := by
    rw [show ((19:ℚ) - 2 * 2) / 10 = 3/2 by norm_num]
    exact Int.floor_eq_iff.mpr ⟨by norm_num, by norm_num⟩
  refine ⟨hb, hfl, ?_, ?_⟩
  · rw [hb, hfl]
    decide
  · rw [hb]
    norm_num

/-- C3 (amended): body_cols is Python round, not floor, of
availableCodeWidth / bodyGlyphWidth, so for every positive glyph width it
satisfies the round bracket
(codeCols - 1/2) * w <= availableCodeWidth <= (codeCols + 1/2) * w
instead of the claimed floor bracket. -/
theorem C3_body_cols (var_x sect_padding w : ℚ) (hw : 0 < w) :
    ((body_cols var_x sect_padding w : ℚ) - 1/2) * w ≤ var_x - sect_padding * 2 ∧
    var_x - sect_padding * 2 ≤ ((body_cols var_x sect_padding w : ℚ) + 1/2) * w := by
  have hne : w ≠ 0 := ne_of_gt hw
  have hb := pyRound_bracket ((var_x - sect_padding * 2) / w)
  simp only [body_cols]
  constructor
  · have h := mul_le_mul_of_nonneg_right hb.1 (le_of_lt hw)
    rwa [div_mul_cancel₀ _ hne] at h
  · have h := mul_le_mul_of_nonneg_right hb.2 (le_of_lt hw)
    rwa [div_mul_cancel₀ _ hne] at h

/-- C3 witness: the round bracket at verticalSplitX 19, padding 2, glyph width 10. -/
theorem C3_body_cols_witness :
    (0:ℚ) < 10 ∧
    (((body_cols 19 2 10 : ℚ) - 1/2) * 10 ≤ (19:ℚ) - 2 * 2 ∧
      (19:ℚ) - 2 * 2 ≤ ((body_cols 19 2 10 : ℚ) + 1/2) * 10) :=
  ⟨by norm_num, C3_body_cols 19 2 10 (by norm_num)⟩

/-- C8: an unsupported output extension makes construction fail with the
ValueError message naming the offending extension, and no renderer value is
produced; extension "mp4" selects the OpenCV codec encoder configured with the
path, the "mp4v" codec and the configured fps, width and height. -/
theorem C8_encoder_dispatch (path : String) (cfg : Config) :
    (pathExt path ≠ "mp4" ∧ pathExt path ≠ "gif" ∧ pathExt path ≠ "webp" →
      mkFrameRenderer path cfg =
        Except.error ("Unrecognized file extension " ++ quoteMark ++ pathExt path ++ quoteMark)) ∧
    (pathExt path = "mp4" →
      ∃ r, mkFrameRenderer path cfg = Except.ok r ∧
        r.encoder = Encoder.opencv path "mp4v" cfg.fps cfg.w cfg.h) := by
  constructor
  · rintro ⟨h1, h2, h3⟩
    have hsel : selectEncoder path (pathExt path) cfg =
        Except.error ("Unrecognized file extension " ++ quoteMark ++ pathExt path ++ quoteMark) := by
      simp only [selectEncoder]
      rw [if_neg h1, if_neg h2, if_neg h3]
    unfold mkFrameRenderer
    rw [hsel]
  · intro h
    have hsel : selectEncoder path (pathExt path) cfg =
        Except.ok (Encoder.opencv path "mp4v" cfg.fps cfg.w cfg.h) := by
      simp only [selectEncoder]
      rw [if_pos h]
    have hmk : mkFrameRenderer path cfg =
        Except.ok (if cfg.intro_text ≠ "" ∧ cfg.intro_time ≠ 0
          then write_intro (initState cfg (Encoder.opencv path "mp4v" cfg.fps cfg.w cfg.h))
          else initState cfg (Encoder.opencv path "mp4v" cfg.fps cfg.w cfg.h)) := by
      unfold mkFrameRenderer
      rw [hsel]
    refine ⟨_, hmk, ?_⟩
    split_ifs with hi
    · rw [write_intro_encoder]
      rfl
    · rfl

/-- C8 witness: extension "xyz" is rejected with a message naming "xyz", and
extension "mp4" yields the OpenCV encoder with the configured fps, width and
height. -/
theorem C8_encoder_dispatch_witness :
    pathExt "out.xyz" = "xyz" ∧
    mkFrameRenderer "out.xyz" cfgPlain =
      Except.error
        ("Unrecognized file extension " ++ quoteMark ++ pathExt "out.xyz" ++ quoteMark) ∧
    (∃ r, mkFrameRenderer "out.mp4" cfgPlain = Except.ok r ∧
      r.encoder = Encoder.opencv "out.mp4" "mp4v" cfgPlain.fps cfgPlain.w cfgPlain.h) :=
  ⟨by decide,
    (C8_encoder_dispatch "out.xyz" cfgPlain).1 ⟨by decide, by decide, by decide⟩,
    (C8_encoder_dispatch "out.mp4" cfgPlain).2 (by decide)⟩

/-- C7 counterexample: with empty intro text but nonzero intro duration and
nonzero frame rate, the claim says the intro runs and emits
round(duration * fps) = 30 frames before any trace frame, but construction
skips the intro entirely (the guard tests intro_text and intro_time, not the
frame rate), so no frame at all has been written. -/
theorem C7_counterexample :
    cfgIntroEmptyText.intro_time ≠ 0 ∧ cfgIntroEmptyText.fps ≠ 0 ∧
    (pyRound (cfgIntroEmptyText.intro_time * cfgIntroEmptyText.fps)).toNat = 30 ∧
    mkFrameRenderer "a.gif" cfgIntroEmptyText =
      Except.ok (initState cfgIntroEmptyText (Encoder.gif "a.gif" cfgIntroEmptyText.fps)) ∧
    (initState cfgIntroEmptyText (Encoder.gif "a.gif" cfgIntroEmptyText.fps)).written.length =
      0 := by
  refine ⟨by norm_num [cfgIntroEmptyText], by norm_num [cfgIntroEmptyText], ?_, ?_, rfl⟩
  · rw [show cfgIntroEmptyText.intro_time * cfgIntroEmptyText.fps = ((30:ℤ) : ℚ) by
      norm_num [cfgIntroEmptyText], pyRound_intCast]
    rfl
  · have hsel : selectEncoder "a.gif" (pathExt "a.gif") cfgIntroEmptyText =
        Except.ok (Encoder.gif "a.gif" cfgIntroEmptyText.fps) := rfl
    have hmk : mkFrameRenderer "a.gif" cfgIntroEmptyText =
        Except.ok (if cfgIntroEmptyText.intro_text ≠ "" ∧ cfgIntroEmptyText.intro_time ≠ 0
          then write_intro (initState cfgIntroEmptyText (Encoder.gif "a.gif" cfgIntroEmptyText.fps))
          else initState cfgIntroEmptyText (Encoder.gif "a.gif" cfgIntroEmptyText.fps)) := by
      unfold mkFrameRenderer
      rw [hsel]
    rw [hmk, if_neg (by simp [cfgIntroEmptyText])]

/-- C7 (amended): the intro sequence runs if and only if the intro text is
non-empty and the intro duration is nonzero (the frame rate is not consulted by
the guard); when it runs it emits exactly round(duration * fps) frames, all
before any trace frame, and each intro frame holds only the intro title centred
at (w/2, h/2) on a blank canvas, never the chrome of a content frame. -/
theorem C7_intro (path : String) (cfg : Config) (enc : Encoder)
    (hsel : selectEncoder path (pathExt path) cfg = Except.ok enc) :
    (cfg.intro_text ≠ "" ∧ cfg.intro_time ≠ 0 →
      mkFrameRenderer path cfg = Except.ok (write_intro (initState cfg enc)) ∧
      (write_intro (initState cfg enc)).written.length =
        (pyRound (cfg.intro_time * cfg.fps)).toNat ∧
      ∀ c ∈ (write_intro (initState cfg enc)).written,
        DrawEvent.textCenter (cfg.w / 2) (cfg.h / 2) cfg.intro_text ∈ c ∧
        DrawEvent.chrome ∉ c) ∧
    (¬(cfg.intro_text ≠ "" ∧ cfg.intro_time ≠ 0) →
      mkFrameRenderer path cfg = Except.ok (initState cfg enc) ∧
      (initState cfg enc).written = []) := by
  have hmk : mkFrameRenderer path cfg =
      Except.ok (if cfg.intro_text ≠ "" ∧ cfg.intro_time ≠ 0
        then write_intro (initState cfg enc) else initState cfg enc) := by
    unfold mkFrameRenderer
    rw [hsel]
  constructor
  · intro h
    refine ⟨by rw [hmk, if_pos h], ?_, ?_⟩
    · rw [write_intro_written]
      simp [initState]
    · intro c hc
      rw [write_intro_written] at hc
      simp only [initState, List.nil_append] at hc
      have hce := List.eq_of_mem_replicate hc
      subst hce
      cases hw : cfg.watermark <;> simp [introCanvas, hw]
  · intro h
    exact ⟨by rw [hmk, if_neg h], rfl⟩

/-- C7 witness: a one-second intro at 2 fps with nonempty text emits exactly
round(1 * 2) = 2 intro frames at construction. -/
theorem C7_intro_witness :
    (cfgIntro.intro_text ≠ "" ∧ cfgIntro.intro_time ≠ 0) ∧
    mkFrameRenderer "a.gif" cfgIntro =
      Except.ok (write_intro (initState cfgIntro (Encoder.gif "a.gif" cfgIntro.fps))) ∧
    (write_intro (initState cfgIntro (Encoder.gif "a.gif" cfgIntro.fps))).written.length =
      (pyRound (cfgIntro.intro_time * cfgIntro.fps)).toNat ∧
    (pyRound (cfgIntro.intro_time * cfgIntro.fps)).toNat = 2 := by
  have hsel : selectEncoder "a.gif" (pathExt "a.gif") cfgIntro =
      Except.ok (Encoder.gif "a.gif" cfgIntro.fps) := rfl
  have hcond : cfgIntro.intro_text ≠ "" ∧ cfgIntro.intro_time ≠ 0 :=
    ⟨by decide, by norm_num [cfgIntro]⟩
  have happ := (C7_intro "a.gif" cfgIntro (Encoder.gif "a.gif" cfgIntro.fps) hsel).1 hcond
  refine ⟨hcond, happ.1, happ.2.1, ?_⟩
  rw [show cfgIntro.intro_time * cfgIntro.fps = ((2:ℤ) : ℚ) by norm_num [cfgIntro],
    pyRound_intCast]
  rfl

/-- C10: when the watermark flag is enabled, every intro frame handed to the
encoder carries the watermark overlay, because intro frames are finished
through the same finish_frame path as content frames. -/
theorem C10_intro_watermark (cfg : Config) (enc : Encoder) (hw : cfg.watermark = true) :
    ∀ c ∈ (write_intro (initState cfg enc)).written, DrawEvent.watermark ∈ c := by
  intro c hc
  rw [write_intro_written] at hc
  simp only [initState, List.nil_append] at hc
  have hce := List.eq_of_mem_replicate hc
  subst hce
  simp [introCanvas, hw]

/-- C10 witness: with the watermark enabled and a two-frame intro, the intro
canvas written to the encoder carries the watermark. -/
theorem C10_intro_watermark_witness :
    cfgIntroWm.watermark = true ∧
    DrawEvent.watermark ∈ introCanvas cfgIntroWm ∧
    (write_intro (initState cfgIntroWm (Encoder.gif "a.gif" cfgIntroWm.fps))).written.length =
      2 := by
  have hn : (write_intro (initState cfgIntroWm (Encoder.gif "a.gif" cfgIntroWm.fps))).written =
      List.replicate 2 (introCanvas cfgIntroWm) := by
    rw [write_intro_written]
    simp only [initState, List.nil_append]
    rw [show cfgIntroWm.intro_time * cfgIntroWm.fps = ((2:ℤ) : ℚ) by norm_num [cfgIntroWm],
      pyRound_intCast]
    rfl
  refine ⟨rfl, ?_, ?_⟩
  · exact C10_intro_watermark cfgIntroWm (Encoder.gif "a.gif" cfgIntroWm.fps) rfl
      (introCanvas cfgIntroWm)
      (by rw [hn]; exact List.mem_replicate.mpr ⟨by norm_num, rfl⟩)
  · rw [hn]
    rfl

end Vardbg


